import Mathlib

/-!
Shallow embedding of the BRRCS record-store layer: the schema validator
(core/data_model.py), the file locker (core/file_locker.py), the backup
manager (core/backup_manager.py) and the Excel record store
(core/excel_io.py), together with theorems settling the frozen claims
about them.

Machine-level conventions of the embedding:
* Cell values are `Value`: strings, integers, or the missing value
  (Python `None` / pandas `NaN`).
* A record (Python dict) is an association list `List (String × Value)`;
  dict-ness (no duplicate keys) is a hypothesis where it matters.
* A pandas DataFrame is a `Dataset`: a column list plus rows of cells.
* The filesystem visible to one operation is an `FSState`: the target
  file's contents, the `<target>.lock` marker, whether some other process
  holds an OS-level lock on the target (what `msvcrt.locking` probes),
  the backup directory (timestamp-keyed snapshots), a clock supplying
  strictly increasing timestamps, and a trace of lock events for stating
  lock-discipline claims.
* The polling loop of `acquire_lock` is collapsed to a single probe: the
  embedded state does not change between polls, so a probe that reports
  locked reports locked at every retry and the loop times out.
-/

namespace BRRCS

/-- Cell values: strings, integers, or the missing value
(Python `None` / pandas `NaN`). -/
inductive Value where
  | vStr (s : String)
  | vInt (n : Int)
  | vNone
  deriving DecidableEq, Repr

/-- Python truthiness of a cell value (the `not record[column]` test in
`validate_record`). -/
def truthy : Value → Bool
  | .vStr s => decide (s ≠ "")
  | .vInt n => decide (n ≠ 0)
  | .vNone => false

/-- `isinstance(value, str)` on an embedded cell value. -/
def isStr : Value → Bool
  | .vStr _ => true
  | _ => false

/-- `ResidentSchema.REQUIRED_COLUMNS` (data_model.py): the full column/type
map; every declared type in the source is `str`, so only the key list is
carried. -/
def REQUIRED_COLUMNS : List String :=
  ["resident_id", "last_name", "first_name", "middle_name", "birth_date", "gender",
   "civil_status", "address", "purok", "contact_number", "email", "voter_id",
   "date_registered", "status"]

/-- `ResidentSchema.OPTIONAL_COLUMNS` (data_model.py). -/
def OPTIONAL_COLUMNS : List String :=
  ["middle_name", "contact_number", "email", "voter_id"]

/-- `ResidentSchema.get_required_columns`: declared columns minus the
optional ones. -/
def get_required_columns : List String :=
  REQUIRED_COLUMNS.filter (fun c => decide (c ∉ OPTIONAL_COLUMNS))

/-- A record: a Python dict from column name to cell value. -/
abbrev Rec := List (String × Value)

/-- `SchemaValidator.validate_headers` (data_model.py): ok iff every
required column occurs among the headers; returns the missing ones. -/
def validate_headers (headers : List String) : Bool × List String :=
  let missing_columns := get_required_columns.filter (fun c => decide (c ∉ headers))
  (missing_columns.isEmpty, missing_columns)

/-- One step of the first loop of `SchemaValidator.validate_record`
(data_model.py): `if column not in record or not record[column]:
errors.append(...)`. -/
def missingStep (record : Rec) (acc : List String) (column : String) : List String :=
  match record.lookup column with
  | some v => if truthy v then acc else acc ++ ["Missing required field: " ++ column]
  | none => acc ++ ["Missing required field: " ++ column]

/-- One step of the second loop of `SchemaValidator.validate_record`
(data_model.py): on a declared column, `value is not None and
not isinstance(value, str)` appends a type error. -/
def typeStep (acc : List String) (cv : String × Value) : List String :=
  if cv.1 ∈ REQUIRED_COLUMNS then
    if cv.2 = Value.vNone then acc
    else if isStr cv.2 then acc
    else acc ++ ["Invalid type for " ++ cv.1 ++ ": expected str"]
  else acc

/-- `SchemaValidator.validate_record` (data_model.py): first pass over the
required columns collecting missing/empty ones, second pass over the
record's items collecting type mismatches on declared columns. -/
def validate_record (record : Rec) : Bool × List String :=
  let errors1 := get_required_columns.foldl (missingStep record) []
  let errors := record.foldl typeStep errors1
  (errors.isEmpty, errors)

/-- The first pass of `validate_record` finds the column present with a
truthy value. -/
def hasTruthy (record : Rec) (c : String) : Bool :=
  match record.lookup c with
  | some v => truthy v
  | none => false

/-- A record entry violating the type pass of `validate_record`: declared
column, value neither missing nor a string. -/
def typeBad (cv : String × Value) : Bool :=
  decide (cv.1 ∈ REQUIRED_COLUMNS) && !(decide (cv.2 = Value.vNone)) && !(isStr cv.2)

/-- The required columns the record is missing or holds an empty value at
(the violations the first pass of `validate_record` reports). -/
def missingRequired (record : Rec) : List String :=
  get_required_columns.filter (fun c => !(hasTruthy record c))

/-- The record entries on declared columns whose value is neither missing
nor a string (the violations the second pass of `validate_record`
reports). -/
def typeMismatches (record : Rec) : List (String × Value) :=
  record.filter typeBad

/-! ## Datasets (pandas DataFrames) and the dataset-level validators -/

/-- A pandas DataFrame: ordered column names plus rows of cells, each row
aligned with the column list. -/
structure Dataset where
  cols : List String
  rows : List (List Value)
  deriving DecidableEq, Repr

/-- The values of one named column (`df[c]`); `[]` when the column is
absent. Cells beyond a ragged row read as missing. -/
def columnValues (d : Dataset) (c : String) : List Value :=
  match d.cols.indexOf? c with
  | some i => d.rows.map (fun row => row.getD i Value.vNone)
  | none => []

/-- The cell of dataset `d` at row `j`, column index `k` (missing when out
of range). -/
def cellAt (d : Dataset) (j k : Nat) : Value :=
  (d.rows.getD j []).getD k Value.vNone

/-- `SchemaValidator.validate_data_types` (data_model.py): for each declared
column present in the DataFrame, every value left by `dropna` must be a
string; returns the mismatched columns. -/
def validate_data_types (d : Dataset) : Bool × List String :=
  let type_mismatches := REQUIRED_COLUMNS.filter
    (fun c => decide (c ∈ d.cols) &&
      !((columnValues d c).all (fun v => decide (v = Value.vNone) || isStr v)))
  (type_mismatches.isEmpty, type_mismatches)

/-! ## Filesystem state, FileLocker (file_locker.py) -/

/-- A lock-discipline event: an `acquire_lock` call returning `ok`, or a
`release_lock` call that found (`existed`) or did not find the marker. -/
inductive LockEvent where
  | acq (ok : Bool)
  | rel (existed : Bool)
  deriving DecidableEq, Repr

/-- The filesystem as one store operation sees it: the target file's
contents, the `<target>.lock` marker, whether another process holds an
OS-level lock on the target (what `msvcrt.locking` probes), the backup
directory as timestamp-keyed snapshots, a clock producing strictly
increasing timestamps, and the trace of lock events. -/
structure FSState where
  targetFile : Option Dataset
  marker : Bool
  osLocked : Bool
  backups : List (Nat × Dataset)
  clock : Nat
  events : List LockEvent
  deriving DecidableEq, Repr

/-- `FileLocker.is_file_locked` (file_locker.py): false when the target is
absent; otherwise the result of the OS-level exclusive probe on the target
file itself. The probe never consults the marker file. The probe-error
path (treated as locked) is folded into `osLocked`. -/
def is_file_locked (st : FSState) : Bool :=
  match st.targetFile with
  | none => false
  | some _ => st.osLocked

/-- `FileLocker.acquire_lock` (file_locker.py): poll `is_file_locked` until
it reports free, then write the marker file and return true; time out with
false otherwise. The embedded state is constant between polls, so one
probe decides the loop. -/
def acquire_lock (st : FSState) : Bool × FSState :=
  if is_file_locked st then
    (false, { st with events := st.events ++ [LockEvent.acq false] })
  else
    (true, { st with marker := true, events := st.events ++ [LockEvent.acq true] })

/-- `FileLocker.release_lock` (file_locker.py): remove the marker file if
present; return whether one existed. -/
def release_lock (st : FSState) : Bool × FSState :=
  if st.marker then
    (true, { st with marker := false, events := st.events ++ [LockEvent.rel true] })
  else
    (false, { st with events := st.events ++ [LockEvent.rel false] })

/-! ## BackupManager (backup_manager.py) -/

/-- Insert a snapshot into a timestamp-sorted list (ascending). -/
def insertByTime (x : Nat × Dataset) : List (Nat × Dataset) → List (Nat × Dataset)
  | [] => [x]
  | y :: ys => if x.1 ≤ y.1 then x :: y :: ys else y :: insertByTime x ys

/-- `backup_files.sort(key=os.path.getmtime)`: sort snapshots by
modification time, oldest first. -/
def sortByTime : List (Nat × Dataset) → List (Nat × Dataset)
  | [] => []
  | x :: xs => insertByTime x (sortByTime xs)

/-- `BackupManager._cleanup_old_backups` (backup_manager.py): sort the
backups oldest-first by modification time and delete from the front while
more than `maxB` remain. `delFail = some k` models `os.remove` raising on
the removal after `k` successful ones; the exception is caught inside the
cleanup, so the deletions simply stop there. -/
def cleanup_old_backups (maxB : Nat) (delFail : Option Nat)
    (bs : List (Nat × Dataset)) : List (Nat × Dataset) :=
  let sorted := sortByTime bs
  let excess := sorted.length - maxB
  let removed := match delFail with
    | none => excess
    | some k => min k excess
  sorted.drop removed

/-- `BackupManager.create_backup` (backup_manager.py): fail when the source
file is absent; otherwise copy it into the backup directory under a fresh
timestamp, run the cleanup, and return the new snapshot's key. -/
def create_backup (maxB : Nat) (delFail : Option Nat) (st : FSState) :
    (Bool × Option Nat) × FSState :=
  match st.targetFile with
  | none => ((false, none), st)
  | some d =>
      ((true, some st.clock),
        { st with
            backups := cleanup_old_backups maxB delFail (st.backups ++ [(st.clock, d)]),
            clock := st.clock + 1 })

/-- `BackupManager.restore_backup` (backup_manager.py): fail when the named
backup is absent; otherwise first back up the current target (result
ignored), then copy the named backup — reread after the cleanup, which may
have evicted it, in which case the copy raises and the call fails — over
the target file. -/
def restore_backup (maxB : Nat) (p : Nat) (st : FSState) : Bool × FSState :=
  match st.backups.lookup p with
  | none => (false, st)
  | some _ =>
      let st1 := (create_backup maxB none st).2
      match st1.backups.lookup p with
      | none => (false, st1)
      | some content => (true, { st1 with targetFile := some content })

/-- `BackupManager.list_backups` (backup_manager.py): every snapshot of
this target, sorted newest-first by modification time. -/
def list_backups (st : FSState) : List (Nat × Dataset) :=
  (sortByTime st.backups).reverse

/-! ## The record store (excel_io.py) -/

/-- The distinct exit paths of the store operations. The source collapses
them all to one `bool`; the tags here correspond one-to-one to the
`return` statements (each with its own log message) in excel_io.py. -/
inductive OpResult where
  | ok
  | invalid
  | lockTimeout
  | loadFailed
  | notFoundRecord
  | duplicate
  | saveFailed
  | excepted
  deriving DecidableEq, Repr

/-- `ExcelIO.load_residents` (excel_io.py): `None` when the target file is
absent, the OS-level probe reports locked, or header/type validation
fails; otherwise the dataset read from disk. -/
def load_residents (st : FSState) : Option Dataset :=
  match st.targetFile with
  | none => none
  | some d =>
      if is_file_locked st then none
      else if !(validate_headers d.cols).1 then none
      else if !(validate_data_types d).1 then none
      else some d

/-- `ExcelIO.save_residents` (excel_io.py): validate headers and types
first (fail fast, no lock); then acquire the lock; holding it, back up the
current on-disk file — aborting on backup failure — then overwrite the
target; the `finally` releases the lock on every post-acquire path. -/
def save_residents (maxB : Nat) (df : Dataset) (st : FSState) : Bool × FSState :=
  if !(validate_headers df.cols).1 then (false, st)
  else if !(validate_data_types df).1 then (false, st)
  else
    let (got, st1) := acquire_lock st
    if !got then (false, st1)
    else
      let (res, st2) := create_backup maxB none st1
      if !res.1 then (false, (release_lock st2).2)
      else (true, (release_lock { st2 with targetFile := some df }).2)

/-- The row mask `df['resident_id'] == resident_id`, the id column sitting
at index `i`. -/
def mask_of (d : Dataset) (i : Nat) (rid : Value) : List Bool :=
  d.rows.map (fun row => decide (row.getD i Value.vNone = rid))

/-- One step of the update loop of `ExcelIO.update_resident` (excel_io.py):
`if key in df.columns: df.loc[mask, key] = value`. -/
def mergeStep (mask : List Bool) (kv : String × Value) (d : Dataset) : Dataset :=
  match d.cols.indexOf? kv.1 with
  | none => d
  | some i =>
      { d with rows := List.zipWith (fun row m => if m then row.set i kv.2 else row) d.rows mask }

/-- The update loop of `ExcelIO.update_resident` (excel_io.py): merge every
supplied field that names an existing column into the masked rows. -/
def mergeRecord (d : Dataset) (mask : List Bool) (u : Rec) : Dataset :=
  u.foldl (fun acc kv => mergeStep mask kv acc) d

/-- `ExcelIO.update_resident` (excel_io.py): validate the supplied fields
with `validate_record`; acquire the lock; load; fail when no row matches
the id; merge the supplied fields; save; the `finally` releases the lock
again after the nested save. A missing `resident_id` column would raise a
`KeyError` caught by the outer handler (`excepted`); the load's header
validation makes that path unreachable. -/
def update_resident (maxB : Nat) (rid : Value) (updated : Rec) (st : FSState) :
    OpResult × FSState :=
  if !(validate_record updated).1 then (OpResult.invalid, st)
  else
    let (got, st1) := acquire_lock st
    if !got then (OpResult.lockTimeout, st1)
    else
      match load_residents st1 with
      | none => (OpResult.loadFailed, (release_lock st1).2)
      | some df =>
          match df.cols.indexOf? "resident_id" with
          | none => (OpResult.excepted, (release_lock st1).2)
          | some i =>
              let mask := mask_of df i rid
              if !(mask.any id) then (OpResult.notFoundRecord, (release_lock st1).2)
              else
                let df2 := mergeRecord df mask updated
                let (s, st2) := save_residents maxB df2 st1
                ((if s then OpResult.ok else OpResult.saveFailed), (release_lock st2).2)

/-- The column list after `pd.concat` of the dataset with a one-row frame
built from the record: the existing columns, then the record's new keys in
order. -/
def concat_columns (d : Dataset) (u : Rec) : List String :=
  d.cols ++ (u.map Prod.fst).filter (fun k => decide (k ∉ d.cols))

/-- `pd.concat([df, pd.DataFrame([new])], ignore_index=True)` (excel_io.py):
old rows padded with missing values on the new columns, then the new row
laid out along the combined column list. -/
def concat_row (d : Dataset) (u : Rec) : Dataset :=
  let newCols := concat_columns d u
  { cols := newCols,
    rows := d.rows.map (fun row => row ++ List.replicate (newCols.length - d.cols.length) Value.vNone)
      ++ [newCols.map (fun c => (u.lookup c).getD Value.vNone)] }

/-- `ExcelIO.add_resident` (excel_io.py): validate the record; acquire the
lock; load; fail on a duplicate `resident_id`; append the record; save;
the `finally` releases the lock again after the nested save. -/
def add_resident (maxB : Nat) (newData : Rec) (st : FSState) : OpResult × FSState :=
  if !(validate_record newData).1 then (OpResult.invalid, st)
  else
    let (got, st1) := acquire_lock st
    if !got then (OpResult.lockTimeout, st1)
    else
      match load_residents st1 with
      | none => (OpResult.loadFailed, (release_lock st1).2)
      | some df =>
          match newData.lookup "resident_id" with
          | none => (OpResult.excepted, (release_lock st1).2)
          | some rid =>
              match df.cols.indexOf? "resident_id" with
              | none => (OpResult.excepted, (release_lock st1).2)
              | some i =>
                  if (df.rows.map (fun row => row.getD i Value.vNone)).any
                      (fun v => decide (v = rid)) then
                    (OpResult.duplicate, (release_lock st1).2)
                  else
                    let df2 := concat_row df newData
                    let (s, st2) := save_residents maxB df2 st1
                    ((if s then OpResult.ok else OpResult.saveFailed), (release_lock st2).2)

/-- `BackupManager.create_backup` iterated: the state after `n` successive
calls (each one on the state the previous call left). -/
def iterate_create (maxB : Nat) : Nat → FSState → FSState
  | 0, st => st
  | n + 1, st => (create_backup maxB none (iterate_create maxB n st)).2

/-! ## Concrete fixtures for counterexamples and witnesses -/

/-- A fully populated row aligned with `REQUIRED_COLUMNS`. -/
def sampleRow (idv : String) : List Value :=
  [Value.vStr idv, Value.vStr "Doe", Value.vStr "John", Value.vStr "M",
   Value.vStr "1990-01-01", Value.vStr "M", Value.vStr "Single", Value.vStr "Addr",
   Value.vStr "P1", Value.vStr "0917", Value.vStr "a@b.c", Value.vStr "V1",
   Value.vStr "2020-01-01", Value.vStr "Active"]

/-- A fully populated record over all declared columns. -/
def sampleRec (idv : String) : Rec :=
  REQUIRED_COLUMNS.zip (sampleRow idv)

/-- A row aligned with `get_required_columns` (the ten required columns). -/
def sampleRow10 (idv : String) : List Value :=
  [Value.vStr idv, Value.vStr "Doe", Value.vStr "John", Value.vStr "1990-01-01",
   Value.vStr "M", Value.vStr "Single", Value.vStr "Addr", Value.vStr "P1",
   Value.vStr "2020-01-01", Value.vStr "Active"]

/-- A record over exactly the ten required columns. -/
def recReq (idv : String) : Rec :=
  get_required_columns.zip (sampleRow10 idv)

/-- A valid one-record dataset over every declared column. -/
def D0 : Dataset :=
  { cols := REQUIRED_COLUMNS, rows := [sampleRow "R1"] }

/-- A valid one-record dataset over only the required columns (no
`email` column, in particular). -/
def D10 : Dataset :=
  { cols := get_required_columns, rows := [sampleRow10 "R1"] }

/-- A dataset with no columns at all: header validation fails. -/
def Dbad : Dataset :=
  { cols := [], rows := [] }

/-- A quiescent filesystem holding `D0`: no marker, no OS-level lock, no
backups yet. -/
def st0 : FSState :=
  { targetFile := some D0, marker := false, osLocked := false,
    backups := [], clock := 0, events := [] }

/-- A quiescent filesystem holding `D10`. -/
def st10 : FSState :=
  { targetFile := some D10, marker := false, osLocked := false,
    backups := [], clock := 0, events := [] }

/-! ## Theorems: the schema validator (claim C6) -/

lemma hasTruthy_iff (record : Rec) (c : String) :
    hasTruthy record c = true ↔ ∃ v, record.lookup c = some v ∧ truthy v = true := by
  cases h : record.lookup c <;> simp [hasTruthy, h]

lemma missingStep_eq_ite (record : Rec) (acc : List String) (c : String) :
    missingStep record acc c =
      if hasTruthy record c then acc else acc ++ ["Missing required field: " ++ c] := by
  unfold missingStep hasTruthy
  cases h : record.lookup c with
  | none => simp
  | some v => cases ht : truthy v <;> simp [ht]

lemma typeStep_eq_ite (acc : List String) (cv : String × Value) :
    typeStep acc cv =
      if typeBad cv then acc ++ ["Invalid type for " ++ cv.1 ++ ": expected str"] else acc := by
  unfold typeStep typeBad
  by_cases h1 : cv.1 ∈ REQUIRED_COLUMNS
  · by_cases h2 : cv.2 = Value.vNone
    · simp [h1, h2]
    · cases h3 : isStr cv.2 <;> simp [h1, h2, h3]
  · simp [h1]

lemma foldl_missingStep (record : Rec) (l : List String) :
    ∀ init : List String,
      l.foldl (missingStep record) init
        = init ++ (l.filter (fun c => !(hasTruthy record c))).map
            (fun c => "Missing required field: " ++ c) := by
  induction l with
  | nil => intro init; simp
  | cons c l ih =>
      intro init
      rw [List.foldl_cons, missingStep_eq_ite, List.filter_cons]
      cases h : hasTruthy record c <;> simp [h, ih]

lemma foldl_typeStep (record : Rec) :
    ∀ init : List String,
      record.foldl typeStep init
        = init ++ (record.filter typeBad).map
            (fun cv => "Invalid type for " ++ cv.1 ++ ": expected str") := by
  induction record with
  | nil => intro init; simp
  | cons cv record ih =>
      intro init
      rw [List.foldl_cons, typeStep_eq_ite, List.filter_cons]
      cases h : typeBad cv <;> simp [h, ih]

lemma validate_record_errors (record : Rec) :
    (validate_record record).2 =
      (missingRequired record).map (fun c => "Missing required field: " ++ c) ++
      (typeMismatches record).map (fun cv => "Invalid type for " ++ cv.1 ++ ": expected str") := by
  show record.foldl typeStep (get_required_columns.foldl (missingStep record) []) = _
  rw [foldl_missingStep, foldl_typeStep]
  simp [missingRequired, typeMismatches]

lemma typeBad_iff (cv : String × Value) :
    typeBad cv = true ↔ cv.1 ∈ REQUIRED_COLUMNS ∧ cv.2 ≠ Value.vNone ∧ isStr cv.2 = false := by
  cases h3 : isStr cv.2 <;> simp [typeBad, h3]

/-- C6: `validate_record` returns ok exactly when every required column is
present with a non-empty (truthy) value and every present declared column
holds a string or the missing value; when not ok, the error list contains
one entry for every missing/empty required column and one for every type
mismatch, not just the first. -/
theorem validate_record_correct (record : Rec) :
    ((validate_record record).1 = true ↔
      (∀ c ∈ get_required_columns, ∃ v, record.lookup c = some v ∧ truthy v = true) ∧
      (∀ cv ∈ record, cv.1 ∈ REQUIRED_COLUMNS → cv.2 ≠ Value.vNone → isStr cv.2 = true)) ∧
    (validate_record record).2 =
      (missingRequired record).map (fun c => "Missing required field: " ++ c) ++
      (typeMismatches record).map (fun cv => "Invalid type for " ++ cv.1 ++ ": expected str") := by
  refine ⟨?_, validate_record_errors record⟩
  have h1 : (validate_record record).1 = (validate_record record).2.isEmpty := rfl
  rw [h1, validate_record_errors record, List.isEmpty_iff, List.append_eq_nil,
    List.map_eq_nil_iff, List.map_eq_nil_iff, missingRequired, typeMismatches,
    List.filter_eq_nil_iff, List.filter_eq_nil_iff]
  constructor
  · rintro ⟨hm, ht⟩
    refine ⟨fun c hc => ?_, fun cv hcv h1 h2 => ?_⟩
    · have := hm c hc
      rw [← hasTruthy_iff]
      simpa using this
    · have := ht cv hcv
      rw [typeBad_iff] at this
      simp only [not_and, ne_eq] at this
      cases h : isStr cv.2
      · exact absurd h (this h1 h2)
      · rfl
  · rintro ⟨hm, ht⟩
    refine ⟨fun c hc => ?_, fun cv hcv => ?_⟩
    · have := hm c hc
      rw [← hasTruthy_iff] at this
      simp [this]
    · rw [typeBad_iff]
      rintro ⟨hb1, hb2, hb3⟩
      exact absurd (ht cv hcv hb1 hb2) (by simp [hb3])

/-! ## Theorems: the file locker (claim C3) -/

lemma is_file_locked_eq (st : FSState) :
    is_file_locked st = (st.targetFile.isSome && st.osLocked) := by
  unfold is_file_locked; cases st.targetFile <;> simp

/-- C3 counterexample: from a quiescent state a first `acquire_lock`
returns true and leaves the marker in place, yet a second `acquire_lock`
on the same target, before any release, returns true as well — the claim
that it does not return true before the first holder releases is false. -/
theorem acquire_second_holder_cex :
    (acquire_lock st0).1 = true ∧ (acquire_lock st0).2.marker = true ∧
    (acquire_lock (acquire_lock st0).2).1 = true := by decide

/-- C3 amended: the marker provides no mutual exclusion. While no process
holds an OS-level lock on the target file, an `acquire_lock` call returns
true immediately even when a prior holder's marker is still in place; an
`acquire_lock` call retries and times out exactly when the OS-level probe
reports the target locked. -/
theorem acquire_ignores_marker (st : FSState) (h : st.osLocked = false) :
    ((acquire_lock st).1 = true ∧ (acquire_lock st).2.marker = true ∧
      (acquire_lock (acquire_lock st).2).1 = true) ∧
    (∀ st2 : FSState, is_file_locked st2 = true →
      acquire_lock st2 = (false, { st2 with events := st2.events ++ [LockEvent.acq false] })) := by
  refine ⟨⟨?_, ?_, ?_⟩, fun st2 h2 => ?_⟩
  · simp [acquire_lock, is_file_locked_eq, h]
  · simp [acquire_lock, is_file_locked_eq, h]
  · simp [acquire_lock, is_file_locked_eq, h]
  · simp [acquire_lock, h2]

/-- C3 witness for the amended theorem, at the quiescent state. -/
theorem acquire_ignores_marker_witness :
    ((acquire_lock st0).1 = true ∧ (acquire_lock st0).2.marker = true ∧
      (acquire_lock (acquire_lock st0).2).1 = true) ∧
    (∀ st2 : FSState, is_file_locked st2 = true →
      acquire_lock st2 = (false, { st2 with events := st2.events ++ [LockEvent.acq false] })) :=
  acquire_ignores_marker st0 (by decide)

/-! ## Theorems: save_residents lock discipline (claim C4) -/

/-- C4: a dataset failing header or type validation makes `save_residents`
return false with the filesystem untouched — in particular no lock marker
is created; and whenever validation passes and the probe reports the
target free (so the lock is acquired), the final state has no marker on
every exit path — including the backup-failure abort — and a subsequent
`acquire_lock` on the same target succeeds immediately. -/
theorem save_residents_lock_discipline (maxB : Nat) :
    (∀ df st, ((validate_headers df.cols).1 = false ∨ (validate_data_types df).1 = false) →
      save_residents maxB df st = (false, st)) ∧
    (∀ df st, (validate_headers df.cols).1 = true → (validate_data_types df).1 = true →
      is_file_locked st = false →
      (save_residents maxB df st).2.marker = false ∧
      (acquire_lock (save_residents maxB df st).2).1 = true) := by
  constructor
  · rintro df st (h | h) <;> simp [save_residents, h]
  · intro df st h1 h2 h3
    cases htf : st.targetFile with
    | none =>
        simp [save_residents, h1, h2, acquire_lock, is_file_locked, htf, create_backup,
          release_lock]
    | some d =>
        have hos : st.osLocked = false := by
          unfold is_file_locked at h3; rw [htf] at h3; exact h3
        simp [save_residents, h1, h2, acquire_lock, is_file_locked, htf, create_backup,
          release_lock, hos]

/-- C4 witness: the empty-column dataset is rejected with the state
untouched, and a valid save from the quiescent state ends with no marker
and an immediately successful re-acquire. -/
theorem save_residents_lock_discipline_witness :
    save_residents 10 Dbad st0 = (false, st0) ∧
    ((save_residents 10 D0 st0).2.marker = false ∧
      (acquire_lock (save_residents 10 D0 st0).2).1 = true) :=
  ⟨(save_residents_lock_discipline 10).1 Dbad st0 (Or.inl (by decide)),
    (save_residents_lock_discipline 10).2 D0 st0 (by decide) (by decide) (by decide)⟩

/-! ## Theorems: save/load round trip (claim C9) -/

/-- C9: for a dataset satisfying the schema (headers and types valid),
when the target file exists and no other process holds an OS-level lock,
`save_residents` succeeds and an immediate `load_residents` returns
exactly the saved dataset: same records, same order, same column values. -/
theorem save_load_roundtrip (maxB : Nat) (df d0 : Dataset) (st : FSState)
    (h1 : (validate_headers df.cols).1 = true) (h2 : (validate_data_types df).1 = true)
    (h3 : st.targetFile = some d0) (h4 : st.osLocked = false) :
    (save_residents maxB df st).1 = true ∧
    load_residents (save_residents maxB df st).2 = some df := by
  simp [save_residents, h1, h2, acquire_lock, is_file_locked, h3, h4, create_backup,
    release_lock, load_residents]

/-- C9 witness: the round trip at the quiescent state with the sample
dataset. -/
theorem save_load_roundtrip_witness :
    (save_residents 10 D0 st0).1 = true ∧
    load_residents (save_residents 10 D0 st0).2 = some D0 :=
  save_load_roundtrip 10 D0 D0 st0 (by decide) (by decide) (by decide) (by decide)

/-! ## Theorems: backup rotation (claims C7 and C8) -/

lemma insertByTime_of_le (x : Nat × Dataset) (l : List (Nat × Dataset))
    (h : ∀ y ∈ l, x.1 ≤ y.1) : insertByTime x l = x :: l := by
  cases l with
  | nil => rfl
  | cons y ys =>
      unfold insertByTime
      rw [if_pos (h y (List.mem_cons_self y ys))]

lemma sortByTime_eq_self {l : List (Nat × Dataset)}
    (h : l.Pairwise (fun a b => a.1 ≤ b.1)) : sortByTime l = l := by
  induction l with
  | nil => rfl
  | cons x xs ih =>
      rw [List.pairwise_cons] at h
      unfold sortByTime
      rw [ih h.2, insertByTime_of_le x xs h.1]

lemma mem_insertByTime (y x : Nat × Dataset) (l : List (Nat × Dataset)) :
    y ∈ insertByTime x l ↔ y = x ∨ y ∈ l := by
  induction l with
  | nil => simp [insertByTime]
  | cons z zs ih =>
      unfold insertByTime
      by_cases h : x.1 ≤ z.1
      · rw [if_pos h]; simp
      · rw [if_neg h]; simp [ih]; tauto

lemma mem_sortByTime (y : Nat × Dataset) (l : List (Nat × Dataset)) :
    y ∈ sortByTime l ↔ y ∈ l := by
  induction l with
  | nil => simp [sortByTime]
  | cons z zs ih =>
      unfold sortByTime
      rw [mem_insertByTime]
      simp [ih]

lemma range_map_snapshots_pairwise (c : Nat) (d : Dataset) (k : Nat) :
    (((List.range k).map (fun j => (c + j, d))).Pairwise
      (fun a b : Nat × Dataset => a.1 ≤ b.1)) := by
  rw [List.pairwise_map]
  exact (List.pairwise_lt_range k).imp (fun h => by omega)

/-- The closed form of iterating `create_backup` from an empty backup
directory: after `k` calls the directory holds the snapshots stamped
`c, c+1, …, c+k-1`, minus the evicted oldest ones past the retention
limit. -/
lemma iterate_create_closed (maxB : Nat) (hmax : 1 ≤ maxB) (d : Dataset) (c : Nat)
    (mk ol : Bool) (ev : List LockEvent) :
    ∀ k, iterate_create maxB k
        { targetFile := some d, marker := mk, osLocked := ol,
          backups := [], clock := c, events := ev }
      = { targetFile := some d, marker := mk, osLocked := ol,
          backups := ((List.range k).map (fun j => (c + j, d))).drop (k - maxB),
          clock := c + k, events := ev } := by
  intro k
  induction k with
  | zero => simp [iterate_create]
  | succ k ih =>
      rw [iterate_create, ih]
      show ({ targetFile := some d
              marker := mk
              osLocked := ol
              backups := cleanup_old_backups maxB none
                ((((List.range k).map (fun j => (c + j, d))).drop (k - maxB)) ++ [(c + k, d)])
              clock := c + k + 1
              events := ev } : FSState) = _
      have hA : ∀ y ∈ ((List.range k).map (fun j => (c + j, d))).drop (k - maxB),
          y.1 ≤ c + k := by
        intro y hy
        have hy2 := List.mem_of_mem_drop hy
        rw [List.mem_map] at hy2
        obtain ⟨j, hj, rfl⟩ := hy2
        rw [List.mem_range] at hj
        omega
      have hsorted : ((((List.range k).map (fun j => (c + j, d))).drop (k - maxB))
            ++ [(c + k, d)]).Pairwise (fun a b : Nat × Dataset => a.1 ≤ b.1) := by
        rw [List.pairwise_append]
        refine ⟨(range_map_snapshots_pairwise c d k).sublist (List.drop_sublist _ _), by simp, ?_⟩
        intro a ha b hb
        rw [List.mem_singleton] at hb
        subst hb
        exact hA a ha
      have hlenA : (((List.range k).map (fun j => (c + j, d))).drop (k - maxB)).length
          = k - (k - maxB) := by simp
      rw [cleanup_old_backups, sortByTime_eq_self hsorted]
      have hgoal : ((((List.range k).map (fun j => (c + j, d))).drop (k - maxB)) ++ [(c + k, d)]).drop
            (((((List.range k).map (fun j => (c + j, d))).drop (k - maxB)) ++ [(c + k, d)]).length - maxB)
          = ((List.range (k + 1)).map (fun j => (c + j, d))).drop (k + 1 - maxB) := by
        rw [List.range_succ, List.map_append, List.drop_append_eq_append_drop,
          List.drop_append_eq_append_drop, List.drop_drop]
        have hlen : ((((List.range k).map (fun j => (c + j, d))).drop (k - maxB))
            ++ [(c + k, d)]).length = (k - (k - maxB)) + 1 := by simp
        rw [hlen]
        simp only [List.length_drop, List.length_map, List.length_range, List.map_cons,
          List.map_nil]
        congr 1
        · congr 1
          omega
        · congr 1
          omega
      rw [hgoal]
      rfl

/-- C7: after every successful `create_backup` at most `maxB` backups
remain and the survivors are a suffix of the time-ordered list (the
evicted ones are the oldest by modification time); `maxB + 1` successive
calls starting from an empty backup directory leave exactly the `maxB`
most recently created snapshots; and a deletion failure during the
cleanup never makes the enclosing `create_backup` call fail. -/
theorem create_backup_retention (maxB : Nat) (st : FSState) (d : Dataset)
    (hmax : 1 ≤ maxB) (htgt : st.targetFile = some d)
    (hsorted : st.backups.Pairwise (fun a b => a.1 ≤ b.1))
    (hclock : ∀ b ∈ st.backups, b.1 ≤ st.clock) :
    ((create_backup maxB none st).1.1 = true ∧
      (create_backup maxB none st).2.backups
        = (st.backups ++ [(st.clock, d)]).drop (st.backups.length + 1 - maxB) ∧
      (create_backup maxB none st).2.backups.length ≤ maxB) ∧
    (∀ c mk ol ev,
      (iterate_create maxB (maxB + 1)
          { targetFile := some d, marker := mk, osLocked := ol,
            backups := [], clock := c, events := ev }).backups
        = (List.range maxB).map (fun j => (c + 1 + j, d))) ∧
    (∀ delFail, (create_backup maxB delFail st).1.1 = true) := by
  have hsorted2 : (st.backups ++ [(st.clock, d)]).Pairwise
      (fun a b : Nat × Dataset => a.1 ≤ b.1) := by
    rw [List.pairwise_append]
    refine ⟨hsorted, by simp, ?_⟩
    intro a ha b hb
    rw [List.mem_singleton] at hb
    subst hb
    exact hclock a ha
  refine ⟨⟨?_, ?_, ?_⟩, ?_, ?_⟩
  · simp [create_backup, htgt]
  · simp [create_backup, htgt, cleanup_old_backups, sortByTime_eq_self hsorted2]
  · simp only [create_backup, htgt, cleanup_old_backups, sortByTime_eq_self hsorted2]
    simp
    omega
  · intro c mk ol ev
    rw [iterate_create_closed maxB hmax d c mk ol ev (maxB + 1)]
    show (((List.range (maxB + 1)).map (fun j => (c + j, d))).drop (maxB + 1 - maxB)) = _
    have h1 : maxB + 1 - maxB = 1 := by omega
    rw [h1, List.range_succ_eq_map, List.map_cons, List.drop_one, List.map_map]
    show (List.range maxB).map ((fun j => (c + j, d)) ∘ Nat.succ) = _
    apply List.map_congr_left
    intro j hj
    show (c + (j + 1), d) = (c + 1 + j, d)
    congr 1
    omega
  · intro delFail
    simp [create_backup, htgt]

/-- C7 witness: one call on the quiescent state keeps its single snapshot,
and eleven calls from an empty directory with the default limit of ten
keep snapshots 1 through 10. -/
theorem create_backup_retention_witness :
    (((create_backup 10 none st0).1.1 = true ∧
      (create_backup 10 none st0).2.backups
        = (st0.backups ++ [(st0.clock, D0)]).drop (st0.backups.length + 1 - 10) ∧
      (create_backup 10 none st0).2.backups.length ≤ 10) ∧
    (∀ c mk ol ev,
      (iterate_create 10 11
          { targetFile := some D0, marker := mk, osLocked := ol,
            backups := [], clock := c, events := ev }).backups
        = (List.range 10).map (fun j => (c + 1 + j, D0))) ∧
    (∀ delFail, (create_backup 10 delFail st0).1.1 = true)) :=
  create_backup_retention 10 st0 D0 (by decide) (by decide) (by decide) (by decide)

/-- C8: `restore_backup` fails when the named backup does not exist, and
otherwise — the target file being present — a successful restore has
first taken a fresh snapshot of the pre-restore target contents, which a
subsequent `list_backups` still contains. -/
theorem restore_backup_safety (maxB p : Nat) (st : FSState) (d : Dataset) :
    (st.backups.lookup p = none → restore_backup maxB p st = (false, st)) ∧
    (1 ≤ maxB → st.targetFile = some d →
      (∀ b ∈ st.backups, b.1 ≤ st.clock) →
      (st.backups.Pairwise (fun a b => a.1 ≤ b.1)) →
      (restore_backup maxB p st).1 = true →
      ∃ t, (t, d) ∈ list_backups (restore_backup maxB p st).2) := by
  constructor
  · intro h
    simp [restore_backup, h]
  · intro hmax htgt hclock hsorted hok
    have hsorted2 : (st.backups ++ [(st.clock, d)]).Pairwise
        (fun a b : Nat × Dataset => a.1 ≤ b.1) := by
      rw [List.pairwise_append]
      refine ⟨hsorted, by simp, ?_⟩
      intro a ha b hb
      rw [List.mem_singleton] at hb
      subst hb
      exact hclock a ha
    refine ⟨st.clock, ?_⟩
    have hmem : (st.clock, d) ∈ (create_backup maxB none st).2.backups := by
      simp only [create_backup, htgt, cleanup_old_backups, sortByTime_eq_self hsorted2]
      rw [List.drop_append_eq_append_drop]
      apply List.mem_append_right
      have hm : (st.backups ++ [(st.clock, d)]).length - maxB - st.backups.length = 0 := by
        simp only [List.length_append, List.length_cons, List.length_nil]
        omega
      rw [hm]
      simp
    cases hl1 : st.backups.lookup p with
    | none => simp [restore_backup, hl1] at hok
    | some content0 =>
        cases hl2 : (create_backup maxB none st).2.backups.lookup p with
        | none => simp [restore_backup, hl1, hl2] at hok
        | some content =>
            simp only [restore_backup, hl1, hl2, list_backups]
            rw [List.mem_reverse, mem_sortByTime]
            exact hmem

/-- C8 witness: restoring the snapshot written by a prior save from the
quiescent state succeeds and a snapshot of the pre-restore contents is
listed; a lookup of a nonexistent backup fails. -/
theorem restore_backup_safety_witness :
    restore_backup 10 5 st0 = (false, st0) ∧
    (∃ t, (t, D0) ∈ list_backups (restore_backup 10 0 (save_residents 10 D0 st0).2).2) :=
  ⟨(restore_backup_safety 10 5 st0 D0).1 (by decide),
    (restore_backup_safety 10 0 (save_residents 10 D0 st0).2 D0).2
      (by decide) (by decide) (by decide) (by decide) (by decide)⟩

/-! ## Theorems: lock discipline of the mutating operations (claim C2) -/

/-- C2: evaluating `add_resident` on a fresh valid record at the quiescent
state. The call succeeds, but its lock-event trace is acquire, acquire,
release(marker existed), release(no marker): the nested `save_residents`
performs a second acquisition (its probe ignores the marker, so it
succeeds at once), and its release deletes the marker, so the operation's
own final release finds no marker — the trace has two successful
acquisitions, not one, and the marker does not persist to the final
release. -/
theorem add_resident_double_acquire :
    (add_resident 10 (sampleRec "R2") st0).1 = OpResult.ok ∧
    (add_resident 10 (sampleRec "R2") st0).2.events
      = [LockEvent.acq true, LockEvent.acq true, LockEvent.rel true, LockEvent.rel false] ∧
    ((add_resident 10 (sampleRec "R2") st0).2.events.filter
        (fun e => decide (e = LockEvent.acq true))).length = 2 := by
  decide

/-! ## Theorems: duplicate rejection in add_resident (claim C5) -/

/-- C5: on a loadable stored dataset, a valid record whose `resident_id`
already occurs in the dataset makes `add_resident` return the duplicate
failure and leaves the on-disk dataset and the backup directory
untouched: no backup is taken and no write is performed. -/
theorem add_resident_duplicate (maxB : Nat) (newData : Rec) (st : FSState) (d : Dataset)
    (i : Nat) (rid : Value)
    (hv : (validate_record newData).1 = true)
    (htgt : st.targetFile = some d)
    (hos : st.osLocked = false)
    (hh : (validate_headers d.cols).1 = true)
    (hty : (validate_data_types d).1 = true)
    (hrid : newData.lookup "resident_id" = some rid)
    (hi : d.cols.indexOf? "resident_id" = some i)
    (hdup : (d.rows.map (fun row => row.getD i Value.vNone)).any
      (fun v => decide (v = rid)) = true) :
    (add_resident maxB newData st).1 = OpResult.duplicate ∧
    (add_resident maxB newData st).2.targetFile = st.targetFile ∧
    (add_resident maxB newData st).2.backups = st.backups := by
  simp only [add_resident, hv, acquire_lock, is_file_locked_eq, htgt, hos,
    load_residents, release_lock, Option.isSome_some, Bool.and_false, Bool.not_true,
    Bool.false_eq_true, if_false, ite_false, hh, hty, hrid, hi, hdup]
  simp [htgt]

/-- C5 witness: adding the sample record with the already-present id R1 at
the quiescent state. -/
theorem add_resident_duplicate_witness :
    (add_resident 10 (sampleRec "R1") st0).1 = OpResult.duplicate ∧
    (add_resident 10 (sampleRec "R1") st0).2.targetFile = st0.targetFile ∧
    (add_resident 10 (sampleRec "R1") st0).2.backups = st0.backups :=
  add_resident_duplicate 10 (sampleRec "R1") st0 D0 0 (Value.vStr "R1")
    (by decide) (by decide) (by decide) (by decide) (by decide) (by decide) (by decide)
    (by decide)

/-! ## Helper lemmas: lookup, indexOf?, cells -/

lemma lookup_mem {l : Rec} {k : String} {v : Value} (h : l.lookup k = some v) : (k, v) ∈ l := by
  induction l with
  | nil => simp [List.lookup] at h
  | cons hd tl ih =>
      rw [List.lookup] at h
      cases hb : k == hd.1 with
      | true =>
          rw [hb] at h
          have hk : k = hd.1 := by simpa using hb
          have hv : v = hd.2 := by simpa using h.symm
          subst hk
          subst hv
          exact List.mem_cons_self _ _
      | false =>
          rw [hb] at h
          exact List.mem_cons_of_mem _ (ih h)

lemma lookup_eq_none_of_not_mem {l : Rec} {k : String} (h : k ∉ l.map Prod.fst) :
    l.lookup k = none := by
  induction l with
  | nil => rfl
  | cons hd tl ih =>
      rw [List.lookup]
      have hne : k ≠ hd.1 := by
        intro he
        exact h (by simp [he])
      have hb : (k == hd.1) = false := by simpa using hne
      rw [hb]
      exact ih (fun hmem => h (by simp [hmem]))

lemma indexOf?_some_getD {l : List String} {a : String} {i : Nat}
    (h : l.indexOf? a = some i) : i < l.length ∧ l.getD i "" = a := by
  rw [List.indexOf?, List.findIdx?_eq_some_iff_getElem] at h
  obtain ⟨hlt, h1, _⟩ := h
  refine ⟨hlt, ?_⟩
  have : l[i] = a := by simpa using h1
  simp [List.getD_eq_getElem?_getD, List.getElem?_eq_getElem hlt, this]

lemma indexOf?_isSome_of_mem {l : List String} {a : String} (h : a ∈ l) :
    ∃ i, l.indexOf? a = some i := by
  cases hidx : l.indexOf? a with
  | some i => exact ⟨i, rfl⟩
  | none =>
      rw [List.indexOf?_eq_none_iff] at hidx
      exact absurd (by simp : (a == a) = true) (hidx a h)

lemma indexOf?_eq_none_of_not_mem {l : List String} {a : String} (h : a ∉ l) :
    l.indexOf? a = none := by
  rw [List.indexOf?_eq_none_iff]
  intro x hx hb
  exact h (by rwa [show x = a by simpa using hb] at hx)

lemma nodup_getD_inj {l : List String} (hc : l.Nodup) {i k : Nat} (hi : i < l.length)
    (hk : k < l.length) (he : l.getD i "" = l.getD k "") : i = k := by
  rw [List.getD_eq_getElem?_getD, List.getElem?_eq_getElem hi] at he
  rw [List.getD_eq_getElem?_getD, List.getElem?_eq_getElem hk] at he
  have hinj := List.nodup_iff_injective_getElem.mp hc
  have := @hinj ⟨i, hi⟩ ⟨k, hk⟩ (by simpa using he)
  simpa using this

lemma getD_getElem {α : Type} {l : List α} {j : Nat} (h : j < l.length) (b : α) :
    l.getD j b = l[j] := by
  simp [List.getD_eq_getElem?_getD, List.getElem?_eq_getElem h]

lemma getD_map_of_lt {α β : Type} (f : α → β) (l : List α) {j : Nat} (h : j < l.length)
    (b : β) (a : α) : (l.map f).getD j b = f (l.getD j a) := by
  have h2 : j < (l.map f).length := by simpa using h
  rw [getD_getElem h2, getD_getElem h, List.getElem_map]

lemma zipWith_row_getD (g : List Value → Bool → List Value) (rows : List (List Value))
    (mask : List Bool) {j : Nat} (hj : j < rows.length) (hm : mask.length = rows.length) :
    (List.zipWith g rows mask).getD j [] = g (rows.getD j []) (mask.getD j false) := by
  have hj2 : j < mask.length := by omega
  rw [List.getD_eq_getElem?_getD, List.getElem?_zipWith, List.getElem?_eq_getElem hj,
    List.getElem?_eq_getElem hj2, getD_getElem hj, getD_getElem hj2]
  rfl

lemma getD_set_valuerow (row : List Value) (i k : Nat) (v : Value) (hi : i < row.length) :
    (row.set i v).getD k Value.vNone =
      if i = k then v else row.getD k Value.vNone := by
  rw [List.getD_eq_getElem?_getD, List.getElem?_set]
  by_cases h : i = k
  · subst h
    simp [hi]
  · simp [h]

/-! ## Helper lemmas: the update merge -/

lemma mergeStep_cols (mask : List Bool) (kv : String × Value) (d : Dataset) :
    (mergeStep mask kv d).cols = d.cols := by
  unfold mergeStep
  cases d.cols.indexOf? kv.1 <;> rfl

lemma mergeStep_rows_length (mask : List Bool) (kv : String × Value) (d : Dataset)
    (hm : mask.length = d.rows.length) :
    (mergeStep mask kv d).rows.length = d.rows.length := by
  unfold mergeStep
  cases d.cols.indexOf? kv.1 with
  | none => rfl
  | some i => simp [hm]

lemma mergeStep_wf (mask : List Bool) (kv : String × Value) (d : Dataset)
    (hm : mask.length = d.rows.length)
    (hw : ∀ j, j < d.rows.length → (d.rows.getD j []).length = d.cols.length) :
    ∀ j, j < d.rows.length → ((mergeStep mask kv d).rows.getD j []).length = d.cols.length := by
  intro j hj
  unfold mergeStep
  cases d.cols.indexOf? kv.1 with
  | none => exact hw j hj
  | some i =>
      show ((List.zipWith _ d.rows mask).getD j []).length = _
      rw [zipWith_row_getD _ d.rows mask hj hm]
      cases mask.getD j false <;> simpa using hw j hj

lemma mergeStep_cell (d : Dataset) (mask : List Bool) (kv : String × Value)
    (hm : mask.length = d.rows.length) (hc : d.cols.Nodup)
    (hw : ∀ j, j < d.rows.length → (d.rows.getD j []).length = d.cols.length)
    (j k : Nat) (hj : j < d.rows.length) (hk : k < d.cols.length) :
    cellAt (mergeStep mask kv d) j k =
      if mask.getD j false = true ∧ d.cols.getD k "" = kv.1
      then kv.2
      else cellAt d j k := by
  unfold mergeStep cellAt
  cases hidx : d.cols.indexOf? kv.1 with
  | none =>
      have hmemk : d.cols.getD k "" ∈ d.cols := by
        rw [getD_getElem hk]
        exact List.getElem_mem _
      have hne : d.cols.getD k "" ≠ kv.1 := by
        intro he
        rw [List.indexOf?_eq_none_iff] at hidx
        refine hidx _ hmemk ?_
        rw [he]
        simp
      exact (if_neg (fun hco => hne hco.2)).symm
  | some i =>
      obtain ⟨hilt, hieq⟩ := indexOf?_some_getD hidx
      show ((List.zipWith _ d.rows mask).getD j []).getD k Value.vNone = _
      rw [zipWith_row_getD _ d.rows mask hj hm]
      cases hmj : mask.getD j false with
      | false => simp
      | true =>
          simp only [eq_self_iff_true, ite_true, true_and]
          have hirow : i < (d.rows.getD j []).length := by rw [hw j hj]; exact hilt
          rw [getD_set_valuerow _ i k kv.2 hirow]
          by_cases hik : i = k
          · subst hik
            rw [if_pos rfl, if_pos hieq]
          · have hne : d.cols.getD k "" ≠ kv.1 := by
              intro he
              exact hik (nodup_getD_inj hc hilt hk (by rw [hieq, he]))
            rw [if_neg hik, if_neg hne]

lemma mergeRecord_cons (d : Dataset) (mask : List Bool) (kv : String × Value) (u : Rec) :
    mergeRecord d mask (kv :: u) = mergeRecord (mergeStep mask kv d) mask u := rfl

lemma mergeRecord_cols (u : Rec) :
    ∀ (d : Dataset) (mask : List Bool), (mergeRecord d mask u).cols = d.cols := by
  induction u with
  | nil => intro d mask; rfl
  | cons kv u ih =>
      intro d mask
      rw [mergeRecord_cons, ih, mergeStep_cols]

lemma mergeRecord_rows_length (u : Rec) :
    ∀ (d : Dataset) (mask : List Bool), mask.length = d.rows.length →
      (mergeRecord d mask u).rows.length = d.rows.length := by
  induction u with
  | nil => intro d mask _; rfl
  | cons kv u ih =>
      intro d mask hm
      rw [mergeRecord_cons]
      rw [ih (mergeStep mask kv d) mask (by rw [mergeStep_rows_length mask kv d hm]; exact hm)]
      exact mergeStep_rows_length mask kv d hm

lemma mergeRecord_cell (u : Rec) :
    ∀ (d : Dataset) (mask : List Bool),
      mask.length = d.rows.length → d.cols.Nodup → (u.map Prod.fst).Nodup →
      (∀ j, j < d.rows.length → (d.rows.getD j []).length = d.cols.length) →
      ∀ j k, j < d.rows.length → k < d.cols.length →
      cellAt (mergeRecord d mask u) j k =
        if mask.getD j false = true ∧ (u.lookup (d.cols.getD k "")).isSome = true
        then (u.lookup (d.cols.getD k "")).getD Value.vNone
        else cellAt d j k := by
  induction u with
  | nil =>
      intro d mask hm hc _ hw j k hj hk
      show cellAt d j k = _
      have hno : (List.lookup (d.cols.getD k "") ([] : Rec)) = none := rfl
      rw [hno]
      simp
  | cons kv u ih =>
      intro d mask hm hc hnd hw j k hj hk
      have hcols := mergeStep_cols mask kv d
      have hlen := mergeStep_rows_length mask kv d hm
      have hnd2 : kv.1 ∉ u.map Prod.fst ∧ (u.map Prod.fst).Nodup := by
        rw [List.map_cons, List.nodup_cons] at hnd
        exact hnd
      rw [mergeRecord_cons]
      rw [ih (mergeStep mask kv d) mask (by rw [hlen]; exact hm)
          (by rw [hcols]; exact hc) hnd2.2
          (by
            intro j2 hj2
            rw [hcols]
            rw [hlen] at hj2
            exact mergeStep_wf mask kv d hm hw j2 hj2)
          j k (by rw [hlen]; exact hj) (by rw [hcols]; exact hk)]
      rw [hcols]
      rw [mergeStep_cell d mask kv hm hc hw j k hj hk]
      by_cases hck : d.cols.getD k "" = kv.1
      · have hb : (d.cols.getD k "" == kv.1) = true := by rw [hck]; simp
        have hl1 : (List.lookup (d.cols.getD k "") (kv :: u)) = some kv.2 := by
          cases kv with
          | mk k1 v1 => rw [List.lookup]; rw [hb]
        have hl2 : (List.lookup (d.cols.getD k "") u) = none := by
          apply lookup_eq_none_of_not_mem
          rw [hck]
          exact hnd2.1
        rw [hl1, hl2, hck]
        simp
      · have hb : (d.cols.getD k "" == kv.1) = false := by
          simpa using hck
        have hl1 : (List.lookup (d.cols.getD k "") (kv :: u))
            = List.lookup (d.cols.getD k "") u := by
          cases kv with
          | mk k1 v1 => rw [List.lookup]; rw [hb]
        rw [hl1]
        have hinner : (if mask.getD j false = true ∧ d.cols.getD k "" = kv.1
            then kv.2 else cellAt d j k) = cellAt d j k := if_neg (fun hco => hck hco.2)
        rw [hinner]

lemma mergeRecord_filter (u : Rec) :
    ∀ (d : Dataset) (mask : List Bool),
      mergeRecord d mask u
        = mergeRecord d mask (u.filter (fun kv => decide (kv.1 ∈ d.cols))) := by
  induction u with
  | nil => intro d mask; rfl
  | cons kv u ih =>
      intro d mask
      rw [mergeRecord_cons, List.filter_cons]
      by_cases hmem : kv.1 ∈ d.cols
      · rw [if_pos (by simpa using hmem), mergeRecord_cons]
        rw [ih (mergeStep mask kv d) mask]
        rw [show (mergeStep mask kv d).cols = d.cols from mergeStep_cols mask kv d]
      · have hstep : mergeStep mask kv d = d := by
          unfold mergeStep
          rw [indexOf?_eq_none_of_not_mem hmem]
        rw [if_neg (by simpa using hmem), hstep]
        exact ih d mask

lemma validate_data_types_ok_iff (d : Dataset) :
    (validate_data_types d).1 = true ↔
      ∀ c ∈ REQUIRED_COLUMNS, c ∈ d.cols →
        ∀ v ∈ columnValues d c, v = Value.vNone ∨ isStr v = true := by
  show (REQUIRED_COLUMNS.filter _).isEmpty = true ↔ _
  rw [List.isEmpty_iff, List.filter_eq_nil_iff]
  constructor
  · intro h c hcr hcd v hv
    have h1 := h c hcr
    simp only [Bool.and_eq_true, Bool.not_eq_true, decide_eq_true_eq, not_and] at h1
    have h2 := h1 hcd
    have h3 : (columnValues d c).all (fun v => decide (v = Value.vNone) || isStr v) = true := by
      simpa using h2
    rw [List.all_eq_true] at h3
    have := h3 v hv
    simpa using this
  · intro h c hcr
    simp only [Bool.and_eq_true, Bool.not_eq_true, decide_eq_true_eq, not_and]
    intro hcd
    have h3 : (columnValues d c).all (fun v => decide (v = Value.vNone) || isStr v) = true := by
      rw [List.all_eq_true]
      intro v hv
      have := h c hcr hcd v hv
      simpa using this
    simp [h3]

lemma validate_record_ok_required {u : Rec} (hv : (validate_record u).1 = true) :
    ∀ c ∈ get_required_columns, hasTruthy u c = true := by
  intro c hc
  have h1 : (validate_record u).1 = (validate_record u).2.isEmpty := rfl
  rw [h1, validate_record_errors, List.isEmpty_iff, List.append_eq_nil,
    List.map_eq_nil_iff, List.map_eq_nil_iff, missingRequired, typeMismatches,
    List.filter_eq_nil_iff, List.filter_eq_nil_iff] at hv
  have := hv.1 c hc
  simpa using this

lemma validate_record_ok_type {u : Rec} (hv : (validate_record u).1 = true) :
    ∀ cv ∈ u, cv.1 ∈ REQUIRED_COLUMNS → cv.2 = Value.vNone ∨ isStr cv.2 = true := by
  intro cv hcv hcr
  have h1 : (validate_record u).1 = (validate_record u).2.isEmpty := rfl
  rw [h1, validate_record_errors, List.isEmpty_iff, List.append_eq_nil,
    List.map_eq_nil_iff, List.map_eq_nil_iff, missingRequired, typeMismatches,
    List.filter_eq_nil_iff, List.filter_eq_nil_iff] at hv
  have := hv.2 cv hcv
  rw [typeBad_iff] at this
  by_cases h2 : cv.2 = Value.vNone
  · exact Or.inl h2
  · right
    cases h3 : isStr cv.2
    · exact absurd ⟨hcr, h2, h3⟩ this
    · rfl

/-! ## Theorems: update merge (claims C1 and C10) -/

lemma columnValues_eq_map {d : Dataset} {c : String} {i : Nat}
    (hi : d.cols.indexOf? c = some i) :
    columnValues d c = d.rows.map (fun row => row.getD i Value.vNone) := by
  unfold columnValues
  rw [hi]

lemma save_residents_ok_eq (maxB : Nat) (df d0 : Dataset) (st : FSState)
    (h1 : (validate_headers df.cols).1 = true) (h2 : (validate_data_types df).1 = true)
    (h3 : st.targetFile = some d0) (h4 : st.osLocked = false) :
    save_residents maxB df st
      = (true,
         { targetFile := some df
           marker := false
           osLocked := st.osLocked
           backups := cleanup_old_backups maxB none (st.backups ++ [(st.clock, d0)])
           clock := st.clock + 1
           events := st.events ++ [LockEvent.acq true, LockEvent.rel true] }) := by
  simp [save_residents, h1, h2, acquire_lock, is_file_locked_eq, h3, h4, create_backup,
    release_lock]

lemma merged_types_ok {d : Dataset} {u : Rec} {mask : List Bool}
    (hty : (validate_data_types d).1 = true)
    (hv : (validate_record u).1 = true)
    (hm : mask.length = d.rows.length) (hcnd : d.cols.Nodup)
    (hnd : (u.map Prod.fst).Nodup)
    (hw : ∀ j, j < d.rows.length → (d.rows.getD j []).length = d.cols.length) :
    (validate_data_types (mergeRecord d mask u)).1 = true := by
  rw [validate_data_types_ok_iff]
  intro c hcr hcd v hvmem
  rw [mergeRecord_cols] at hcd
  obtain ⟨k, hk⟩ := indexOf?_isSome_of_mem hcd
  obtain ⟨hklt, hkeq⟩ := indexOf?_some_getD hk
  have hk2 : (mergeRecord d mask u).cols.indexOf? c = some k := by
    rw [mergeRecord_cols]; exact hk
  rw [columnValues_eq_map hk2, List.mem_map] at hvmem
  obtain ⟨row, hrow, hrowv⟩ := hvmem
  rw [List.mem_iff_getElem] at hrow
  obtain ⟨j, hj, hrowj⟩ := hrow
  have hjlen : j < d.rows.length := by
    rw [← mergeRecord_rows_length u d mask hm]; exact hj
  have hcell : v = cellAt (mergeRecord d mask u) j k := by
    rw [cellAt, getD_getElem hj, hrowj, hrowv]
  rw [hcell, mergeRecord_cell u d mask hm hcnd hnd hw j k hjlen hklt]
  by_cases hco : mask.getD j false = true ∧ (u.lookup (d.cols.getD k "")).isSome = true
  · rw [if_pos hco]
    cases hl : u.lookup (d.cols.getD k "") with
    | none => rw [hl] at hco; simp at hco
    | some w =>
        have hwmem := lookup_mem hl
        have := validate_record_ok_type hv _ hwmem (by rw [hkeq]; exact hcr)
        simpa using this
  · rw [if_neg hco]
    have hcellmem : cellAt d j k ∈ columnValues d c := by
      rw [columnValues_eq_map hk, List.mem_map]
      refine ⟨d.rows.getD j [], ?_, rfl⟩
      rw [getD_getElem hjlen]
      exact List.getElem_mem _
    exact (validate_data_types_ok_iff d).mp hty c hcr hcd _ hcellmem

/-- C1 amended: `update_resident` validates the supplied fields as a FULL
record (`validate_record`: every required column present and non-empty),
not as a fragment. Given fields passing that validation, a stored dataset
containing a matching `resident_id`, and a free target, the call succeeds
and the saved dataset is the merge: same columns, same number of records,
and every cell of every row either keeps its old value or — exactly on
the rows whose `resident_id` matches and the columns the fields supply —
takes the supplied value. Other fields of the matching record and all
other records are unchanged. -/
theorem update_resident_full_merge (maxB : Nat) (rid : Value) (u : Rec) (st : FSState)
    (d : Dataset) (i : Nat)
    (hv : (validate_record u).1 = true)
    (hnd : (u.map Prod.fst).Nodup)
    (htgt : st.targetFile = some d)
    (hos : st.osLocked = false)
    (hh : (validate_headers d.cols).1 = true)
    (hty : (validate_data_types d).1 = true)
    (hcnd : d.cols.Nodup)
    (hw : ∀ j, j < d.rows.length → (d.rows.getD j []).length = d.cols.length)
    (hi : d.cols.indexOf? "resident_id" = some i)
    (hmatch : ∃ j, j < d.rows.length ∧ cellAt d j i = rid) :
    (update_resident maxB rid u st).1 = OpResult.ok ∧
    (update_resident maxB rid u st).2.targetFile
        = some (mergeRecord d (mask_of d i rid) u) ∧
    (mergeRecord d (mask_of d i rid) u).cols = d.cols ∧
    (mergeRecord d (mask_of d i rid) u).rows.length = d.rows.length ∧
    (∀ j k, j < d.rows.length → k < d.cols.length →
      cellAt (mergeRecord d (mask_of d i rid) u) j k =
        if cellAt d j i = rid ∧ (u.lookup (d.cols.getD k "")).isSome = true
        then (u.lookup (d.cols.getD k "")).getD Value.vNone
        else cellAt d j k) := by
  have hmlen : (mask_of d i rid).length = d.rows.length := by simp [mask_of]
  have hmget : ∀ j, j < d.rows.length →
      (mask_of d i rid).getD j false = decide (cellAt d j i = rid) := by
    intro j hj
    unfold mask_of cellAt
    rw [getD_map_of_lt _ _ hj false []]
  have hmaskany : ((mask_of d i rid).any id) = true := by
    obtain ⟨j0, hj0, hcell⟩ := hmatch
    rw [List.any_eq_true]
    refine ⟨decide ((d.rows.getD j0 []).getD i Value.vNone = rid), ?_, ?_⟩
    · unfold mask_of
      rw [List.mem_map]
      refine ⟨d.rows.getD j0 [], ?_, rfl⟩
      rw [getD_getElem hj0]
      exact List.getElem_mem _
    · show decide _ = true
      rw [cellAt] at hcell
      rw [hcell]
      simp
  have hh2 : (validate_headers (mergeRecord d (mask_of d i rid) u).cols).1 = true := by
    rw [mergeRecord_cols]; exact hh
  have hty2 := merged_types_ok hty hv hmlen hcnd hnd hw
  have hcellchar : ∀ j k, j < d.rows.length → k < d.cols.length →
      cellAt (mergeRecord d (mask_of d i rid) u) j k =
        if cellAt d j i = rid ∧ (u.lookup (d.cols.getD k "")).isSome = true
        then (u.lookup (d.cols.getD k "")).getD Value.vNone
        else cellAt d j k := by
    intro j k hj hk
    rw [mergeRecord_cell u d (mask_of d i rid) hmlen hcnd hnd hw j k hj hk, hmget j hj]
    simp only [decide_eq_true_eq]
  have hsave := save_residents_ok_eq maxB (mergeRecord d (mask_of d i rid) u) d
      { targetFile := some d
        marker := true
        osLocked := false
        backups := st.backups
        clock := st.clock
        events := st.events ++ [LockEvent.acq true] }
      hh2 hty2 rfl rfl
  refine ⟨?_, ?_, mergeRecord_cols u d (mask_of d i rid),
    mergeRecord_rows_length u d (mask_of d i rid) hmlen, hcellchar⟩
  all_goals
    simp only [update_resident, hv, Bool.not_true, Bool.false_eq_true, if_false,
      acquire_lock, is_file_locked_eq, htgt, hos, Option.isSome_some, Bool.and_false,
      load_residents, hh, hty, Bool.not_false, ite_true, ite_false, hi, hmaskany,
      hsave, release_lock]

/-- C1 counterexample: the stored dataset contains a record with id R1,
yet `update_resident` with the single supplied field `purok` does not
succeed — it fails validation (`validate_record` demands every required
column) and leaves the state untouched. -/
theorem update_single_field_cex :
    cellAt D0 0 0 = Value.vStr "R1" ∧
    (update_resident 10 (Value.vStr "R1") [("purok", Value.vStr "7")] st0).1
      = OpResult.invalid ∧
    (update_resident 10 (Value.vStr "R1") [("purok", Value.vStr "7")] st0).2 = st0 := by
  decide

/-- C1 witness for the amended theorem: a full-record update of R1 at the
quiescent state succeeds and saves exactly the merge. -/
theorem update_resident_full_merge_witness :
    (update_resident 10 (Value.vStr "R1") (sampleRec "R1") st0).1 = OpResult.ok ∧
    (update_resident 10 (Value.vStr "R1") (sampleRec "R1") st0).2.targetFile
        = some (mergeRecord D0 (mask_of D0 0 (Value.vStr "R1")) (sampleRec "R1")) ∧
    (mergeRecord D0 (mask_of D0 0 (Value.vStr "R1")) (sampleRec "R1")).cols = D0.cols ∧
    (mergeRecord D0 (mask_of D0 0 (Value.vStr "R1")) (sampleRec "R1")).rows.length
        = D0.rows.length ∧
    (∀ j k, j < D0.rows.length → k < D0.cols.length →
      cellAt (mergeRecord D0 (mask_of D0 0 (Value.vStr "R1")) (sampleRec "R1")) j k =
        if cellAt D0 j 0 = Value.vStr "R1" ∧
            ((sampleRec "R1").lookup (D0.cols.getD k "")).isSome = true
        then ((sampleRec "R1").lookup (D0.cols.getD k "")).getD Value.vNone
        else cellAt D0 j k) :=
  update_resident_full_merge 10 (Value.vStr "R1") (sampleRec "R1") st0 D0 0
    (by decide) (by decide) rfl rfl (by decide) (by decide) (by decide)
    (by
      intro j hj
      have hlen : D0.rows.length = 1 := rfl
      rw [hlen] at hj
      have hj0 : j = 0 := by omega
      subst hj0
      decide)
    (by decide) ⟨0, by decide, by decide⟩

/-- C10 counterexample: `email` is not a column of the stored ten-column
dataset, yet supplying it with a non-string value makes the whole update
fail Invalid — the same update without that key succeeds — so a key that
is not a dataset column is NOT always silently ignored: it still goes
through record validation. -/
theorem update_extra_key_cex :
    "email" ∉ D10.cols ∧
    (update_resident 10 (Value.vStr "R1") (recReq "R1" ++ [("email", Value.vInt 0)]) st10).1
      = OpResult.invalid ∧
    (update_resident 10 (Value.vStr "R1") (recReq "R1") st10).1 = OpResult.ok := by
  decide

/-- C10 amended: the merge step of `update_resident` ignores keys that are
not columns of the loaded dataset — the merged dataset has exactly the
original column set (nothing is added), and merging the supplied fields
equals merging only those fields whose key is an existing column. A
non-column key is not exempt from the preceding `validate_record` pass,
which can still reject the call (see the counterexample). -/
theorem mergeRecord_ignores_unknown_keys :
    (∀ (d : Dataset) (mask : List Bool) (u : Rec), (mergeRecord d mask u).cols = d.cols) ∧
    (∀ (d : Dataset) (mask : List Bool) (u : Rec),
      mergeRecord d mask u
        = mergeRecord d mask (u.filter (fun kv => decide (kv.1 ∈ d.cols)))) :=
  ⟨fun d mask u => mergeRecord_cols u d mask, fun d mask u => mergeRecord_filter u d mask⟩

end BRRCS
